import Mathlib

/-!
Verification development for the event-normalization script `main.py`.

The script reads JSON lines, infers per-field roles (identifier, timestamp,
user, event type, source) by name-substring heuristics, and partitions the
records into unified events and rejections.  The definitions below are a
shallow embedding of the Python functions, translated clause by clause:

* JSON scalar values are modelled by `Value`.  JSON numbers are modelled as
  integers (every numeric value exercised by the properties under study is an
  integer), and nested objects/arrays are not modelled (the engine only
  inspects top-level scalar fields; nested values would only ever pass
  through as opaque payload).
* A parsed record is an association list `Record`, which preserves the
  insertion order of a Python `dict`.
* Python truthiness, `str(...)`, `dict.get`, the `in` operator on `dict`,
  substring containment (`'x' in s`), and `str.lower()` are modelled by
  `truthy`, `pyStr`, `pyGet`, `pyHasKey`, `hasSub`, and `lowerStr`.
* `datetime.fromtimestamp(..).isoformat()` is modelled for the UTC timezone
  (the script itself blindly appends `Z` after a local-time conversion; the
  model fixes local time = UTC) and returns `none` where Python raises
  (epoch outside `datetime`'s year range 1..9999, negative epochs are out of
  the model's scope and never reached by the call sites).
-/

/-- A top-level JSON scalar value as the script sees one. -/
inductive Value where
  | str (s : String)
  | int (n : Int)
  | bool (b : Bool)
  | null
deriving DecidableEq, Repr

/-- A parsed JSON object: field names with values, in insertion order. -/
abbrev Record := List (String × Value)

/-- Python truthiness of a scalar value. -/
def truthy : Value → Bool
  | .str s => s != ""
  | .int n => n != 0
  | .bool b => b
  | .null => false

/-- Python `str(...)` on a scalar value. -/
def pyStr : Value → String
  | .str s => s
  | .int n => toString n
  | .bool b => if b then "True" else "False"
  | .null => "None"

/-- Python `record.get(field)`: the value of the first matching key, if any. -/
def pyGet (record : Record) (key : String) : Option Value :=
  match record with
  | [] => none
  | (k, v) :: rest => if k == key then some v else pyGet rest key

/-- Python `field in record` (key membership test on a dict). -/
def pyHasKey (record : Record) (key : String) : Bool :=
  (pyGet record key).isSome

/-- Whether `pat` is a prefix of the character list `s`. -/
def leadEq : List Char → List Char → Bool
  | [], _ => true
  | _ :: _, [] => false
  | a :: as, b :: bs => a == b && leadEq as bs

/-- Whether `pat` occurs as a contiguous sublist of `s`. -/
def subChars (pat : List Char) : List Char → Bool
  | [] => pat.isEmpty
  | c :: rest => leadEq pat (c :: rest) || subChars pat rest

/-- Python `pat in s` on strings: substring containment. -/
def hasSub (s pat : String) : Bool := subChars pat.toList s.toList

/-- Python `s.lower()` (ASCII is all the script ever feeds it). -/
def lowerStr (s : String) : String := String.mk (s.toList.map Char.toLower)

/-- The four role buckets built by `categorize_fields` in `main.py`. -/
structure Categories where
  id_fields : List String
  timestamp_fields : List String
  user_fields : List String
  event_type_fields : List String
deriving DecidableEq, Repr

/-- Embedding of `categorize_fields` (main.py lines 25-59): each field name is
bucketed by independent substring tests on its lowercased form, preserving
the order in which the names are iterated.  The Python code iterates a `set`
and appends; here the same in-iteration-order list is built by recursion on
the input list, whose order stands for the set's (unspecified) iteration
order. -/
def categorize_fields : List String → Categories
  | [] => ⟨[], [], [], []⟩
  | field :: rest =>
    let cats := categorize_fields rest
    let fl := lowerStr field
    { id_fields :=
        (if hasSub fl "id" then [field] else []) ++ cats.id_fields
      timestamp_fields :=
        (if hasSub fl "time" || hasSub fl "date" || hasSub fl "created"
            || hasSub fl "occurred" then [field] else [])
          ++ cats.timestamp_fields
      user_fields :=
        (if hasSub fl "user" || hasSub fl "customer" then [field] else [])
          ++ cats.user_fields
      event_type_fields :=
        (if hasSub fl "type" || hasSub fl "event" || hasSub fl "action"
         then [field] else [])
          ++ cats.event_type_fields }

/-- Embedding of `get_id` (main.py lines 62-73): first field of the id bucket
present in the record with a truthy value, stringified; otherwise a
generated identifier. -/
def get_id (record : Record) (id_fields : List String) (line_number : Nat) : String :=
  match id_fields with
  | [] => "generated_" ++ toString line_number
  | field :: rest =>
    match pyGet record field with
    | some v => if truthy v then pyStr v else get_id record rest line_number
    | none => get_id record rest line_number

/-- Leap-year test of the proleptic Gregorian calendar. -/
def isLeap (y : Nat) : Bool := y % 4 == 0 && (y % 100 != 0 || y % 400 == 0)

/-- Days in a month of the given year. -/
def daysInMonth (y m : Nat) : Nat :=
  if m == 2 then (if isLeap y then 29 else 28)
  else if m == 4 || m == 6 || m == 9 || m == 11 then 30
  else 31

/-- Civil date (year, month, day) from a count of days since 1970-01-01,
by the standard era/day-of-era decomposition of the Gregorian calendar. -/
def civilFromDays (days : Nat) : Nat × Nat × Nat :=
  let z := days + 719468
  let era := z / 146097
  let doe := z % 146097
  let yoe := (doe - doe / 1460 + doe / 36524 - doe / 146096) / 365
  let y := yoe + era * 400
  let doy := doe - (365 * yoe + yoe / 4 - yoe / 100)
  let mp := (5 * doy + 2) / 153
  let d := doy - (153 * mp + 2) / 5 + 1
  let m := if mp < 10 then mp + 3 else mp - 9
  (if m ≤ 2 then y + 1 else y, m, d)

/-- Zero-pad a number to two digits. -/
def pad2 (n : Nat) : String := if n < 10 then "0" ++ toString n else toString n

/-- Zero-pad a number to four digits. -/
def pad4 (n : Nat) : String :=
  if n < 10 then "000" ++ toString n
  else if n < 100 then "00" ++ toString n
  else if n < 1000 then "0" ++ toString n
  else toString n

/-- Zero-pad a number to six digits (microseconds). -/
def pad6 (n : Nat) : String :=
  if n < 10 then "00000" ++ toString n
  else if n < 100 then "0000" ++ toString n
  else if n < 1000 then "000" ++ toString n
  else if n < 10000 then "00" ++ toString n
  else if n < 100000 then "0" ++ toString n
  else toString n

/-- ISO-8601 text of a UTC instant given as seconds since the epoch plus a
microsecond part, in Python `datetime.isoformat()` style (the fractional
part is printed only when non-zero). -/
def isoOfEpoch (secs micro : Nat) : String :=
  let days := secs / 86400
  let rem := secs % 86400
  let ymd := civilFromDays days
  pad4 ymd.1 ++ "-" ++ pad2 ymd.2.1 ++ "-" ++ pad2 ymd.2.2
    ++ "T" ++ pad2 (rem / 3600) ++ ":" ++ pad2 (rem % 3600 / 60)
    ++ ":" ++ pad2 (rem % 60)
    ++ (if micro == 0 then "" else "." ++ pad6 micro)

/-- Largest epoch-second value `datetime` accepts (9999-12-31T23:59:59). -/
def maxEpochSecs : Nat := 253402300799

/-- Model of `datetime.fromtimestamp(n).isoformat()` at UTC for an integer
epoch: `none` where Python raises (epoch beyond year 9999; negative epochs
are outside the model and never reached, since every call site guards
`n > 10^9`). -/
def fromtimestampSec (n : Int) : Option String :=
  if n < 0 then none
  else if n.toNat > maxEpochSecs then none
  else some (isoOfEpoch n.toNat 0)

/-- Model of `datetime.fromtimestamp(n / 1000).isoformat()` at UTC for an
integer millisecond epoch: Python's float division keeps the millisecond
remainder as a fractional second, which `fromtimestamp` turns into
microseconds. -/
def fromtimestampMs (n : Int) : Option String :=
  if n < 0 then none
  else
    let secs := n.toNat / 1000
    let micro := n.toNat % 1000 * 1000
    if secs > maxEpochSecs then none
    else some (isoOfEpoch secs micro)

/-- Whether every character of the string is an ASCII digit. -/
def allDigits (s : String) : Bool := s.toList.all Char.isDigit

/-- Model of `datetime.strptime(value, "%Y-%m-%d %H:%M:%S").isoformat()`:
parses a rigid `YYYY-MM-DD HH:MM:SS` string, validating the calendar ranges,
and `none` where Python raises.  (Python's `%Y` also accepts years of fewer
than four digits; the model fixes four-digit years — no property under
study exercises this branch.) -/
def strptimeIso (s : String) : Option String :=
  match s.splitOn " " with
  | [datePart, timePart] =>
    match datePart.splitOn "-", timePart.splitOn ":" with
    | [ys, ms, ds], [hs, mis, ss] =>
      if ys.length == 4 && ms.length == 2 && ds.length == 2
          && hs.length == 2 && mis.length == 2 && ss.length == 2
          && allDigits ys && allDigits ms && allDigits ds
          && allDigits hs && allDigits mis && allDigits ss then
        let y := ys.toNat?.getD 0
        let m := ms.toNat?.getD 0
        let d := ds.toNat?.getD 0
        let h := hs.toNat?.getD 0
        let mi := mis.toNat?.getD 0
        let sec := ss.toNat?.getD 0
        if 1 ≤ y && 1 ≤ m && m ≤ 12 && 1 ≤ d && d ≤ daysInMonth y m
            && h ≤ 23 && mi ≤ 59 && sec ≤ 59 then
          some (ys ++ "-" ++ ms ++ "-" ++ ds ++ "T" ++ hs ++ ":" ++ mis ++ ":" ++ ss)
        else none
      else none
    | _, _ => none
  | _ => none

/-- The format-dispatch inside the `try` block of `get_timestamp`
(main.py lines 92-108), on one candidate value: ISO text with `T` is
returned unchanged; integers above `10^12` are a millisecond epoch and
above `10^9` a second epoch, converted and suffixed with `Z`; text with a
space and a hyphen goes through strict `strptime`; everything else — and
everything that makes Python raise — yields `none`, which the caller treats
as "try the next candidate".  (A Python `bool` is an `int` with value 0 or
1, which never exceeds the numeric thresholds, hence `none` here.) -/
def tsNormalize (v : Value) : Option String :=
  match v with
  | .str s =>
    if hasSub s "T" then some s
    else if hasSub s " " && hasSub s "-" then
      (strptimeIso s).map (fun t => t ++ "Z")
    else none
  | .int n =>
    if n > 1000000000000 then (fromtimestampMs n).map (fun t => t ++ "Z")
    else if n > 1000000000 then (fromtimestampSec n).map (fun t => t ++ "Z")
    else none
  | .bool _ => none
  | .null => none

/-- Embedding of `get_timestamp` (main.py lines 76-112): walk the timestamp
bucket, skip falsy values and the `invalid-date` sentinel, return the first
candidate that normalizes, else `None`. -/
def get_timestamp (record : Record) : List String → Option String
  | [] => none
  | field :: rest =>
    match pyGet record field with
    | none => get_timestamp record rest
    | some value =>
      if !truthy value || value == Value.str "invalid-date" then
        get_timestamp record rest
      else
        match tsNormalize value with
        | some s => some s
        | none => get_timestamp record rest

/-- Embedding of `get_user` (main.py lines 115-125): first user-bucket value
that is truthy, not `''`, and not `'guest'`, stringified. -/
def get_user (record : Record) : List String → Option String
  | [] => none
  | field :: rest =>
    match pyGet record field with
    | some v =>
      if truthy v && !(v == Value.str "") && !(v == Value.str "guest") then
        some (pyStr v)
      else get_user record rest
    | none => get_user record rest

/-- Embedding of `get_event_type` (main.py lines 128-145): first truthy
event-type-bucket value, stringified; else the structural fallbacks
`login_event` → `"login"`, `error` → `"error"`, `transaction_type` → its
raw value; else `None`.  (The fallback returns the raw value, which is why
the result is a `Value`, not a `String`.) -/
def get_event_type (record : Record) (event_type_fields : List String) : Option Value :=
  match event_type_fields with
  | field :: rest =>
    match pyGet record field with
    | some v =>
      if truthy v then some (Value.str (pyStr v))
      else get_event_type record rest
    | none => get_event_type record rest
  | [] =>
    if pyHasKey record "login_event" then some (Value.str "login")
    else if pyHasKey record "error" then some (Value.str "error")
    else
      match pyGet record "transaction_type" with
      | some v => some v
      | none => none

/-- Embedding of `get_source` (main.py lines 148-164). -/
def get_source (record : Record) : String :=
  if pyHasKey record "transaction_id" || pyHasKey record "payment_method"
      || pyHasKey record "order_details" then "vendor"
  else if pyHasKey record "error" && pyHasKey record "stack_trace" then "device"
  else "internal"

/-- Python truthiness of the optional timestamp string, as tested by
`if not timestamp:` in `map_to_schema`. -/
def optStrTruthy : Option String → Bool
  | none => false
  | some s => s != ""

/-- Python truthiness of the optional event-type value, as tested by
`if not event_type:` in `map_to_schema`. -/
def optValTruthy : Option Value → Bool
  | none => false
  | some v => truthy v

/-- The canonical output shape assembled by `map_to_schema`; the optional
`userId` models the key that Python adds only when a user was found. -/
structure UnifiedEvent where
  id : String
  timestamp : String
  source : String
  eventType : Value
  payload : Record
  userId : Option String
deriving DecidableEq, Repr

/-- Embedding of `map_to_schema` (main.py lines 167-208): run the five
extractors, collect `"Missing timestamp"` / `"Missing event type"` in that
order, and either reject with the errors or assemble the unified event.
The `line` argument mirrors the Python parameter, which is never used.
The `getD` defaults are unreachable: the branch is only taken when both
options are truthy (hence `some`). -/
def map_to_schema (record : Record) (line : String) (line_number : Nat)
    (field_categories : Categories) : Option UnifiedEvent × List String :=
  let event_id := get_id record field_categories.id_fields line_number
  let timestamp := get_timestamp record field_categories.timestamp_fields
  let user_id := get_user record field_categories.user_fields
  let event_type := get_event_type record field_categories.event_type_fields
  let source := get_source record
  let errors : List String :=
    (if optStrTruthy timestamp then [] else ["Missing timestamp"])
      ++ (if optValTruthy event_type then [] else ["Missing event type"])
  let _ := line
  if errors.isEmpty then
    (some
      { id := event_id
        timestamp := timestamp.getD ""
        source := source
        eventType := (event_type.getD Value.null)
        payload := record
        userId :=
          match user_id with
          | some u => if u == "" then none else some u
          | none => none },
      [])
  else (none, errors)

/-- A rejection entry as `main` builds one: `{'line': .., 'errors': ..}` —
the original record is not part of it. -/
structure RejectionRecord where
  line : Nat
  errors : List String
deriving DecidableEq, Repr

/-- One input line of the batch, modelled by its parse outcome: blank
(stripped-empty, skipped), JSON that fails to parse, or a parsed object.
JSON parsing itself is external glue; its verbatim text rides along as the
`raw` component. -/
inductive InLine where
  | blank
  | badJson (raw : String)
  | parsed (record : Record) (raw : String)
deriving DecidableEq, Repr

/-- One message on the diagnostic (stdout) channel of `main`. -/
inductive Diag where
  | ok (n : Nat)
  | rejected (n : Nat) (errors : List String)
  | badJson (n : Nat)
deriving DecidableEq, Repr

/-- The accumulating state of the batch loop in `main`: the valid and
invalid sets plus the diagnostic messages printed so far. -/
structure BatchResult where
  valid : List UnifiedEvent
  invalid : List RejectionRecord
  diags : List Diag
deriving DecidableEq, Repr

/-- One iteration of the loop in `main` (lines 230-247): blank lines are
skipped, a parse failure only prints `Bad JSON`, a parsed record goes
through `map_to_schema` and lands in the valid or invalid set. -/
def processLine (cats : Categories) (st : BatchResult) (n : Nat) :
    InLine → BatchResult
  | .blank => st
  | .badJson _ => { st with diags := st.diags ++ [Diag.badJson n] }
  | .parsed record raw =>
    match map_to_schema record raw n cats with
    | (some ev, _) =>
      { st with valid := st.valid ++ [ev], diags := st.diags ++ [Diag.ok n] }
    | (none, errs) =>
      { st with invalid := st.invalid ++ [RejectionRecord.mk n errs]
                diags := st.diags ++ [Diag.rejected n errs] }

/-- The batch loop of `main` over the remaining lines, with `n` the
1-based number of the next line (blank lines consume a number too, exactly
as `enumerate(file, start=1)` does). -/
def processLines (cats : Categories) : List InLine → Nat → BatchResult → BatchResult
  | [], _, st => st
  | l :: rest, n, st => processLines cats rest (n + 1) (processLine cats st n l)

/-- Whole batch run of `main` steps 3-4 over pre-parsed input lines. -/
def runBatch (cats : Categories) (input : List InLine) : BatchResult :=
  processLines cats input 1 { valid := [], invalid := [], diags := [] }

/-- The files `main` writes at the end (step 5, lines 255-259): exactly one
file, `unified_events.json`, holding the valid set.  The invalid set is
never serialized. -/
def savedFiles (st : BatchResult) : List (String × List UnifiedEvent) :=
  [("unified_events.json", st.valid)]

/-- Field names of a record, in insertion order. -/
def recordKeys (record : Record) : List String := record.map Prod.fst

/-- Append those of `ks` not already present, preserving first-appearance
order. -/
def insertNew (acc : List String) (ks : List String) : List String :=
  ks.foldl (fun a k => if a.contains k then a else a ++ [k]) acc

/-- Embedding of `find_all_field_names` (main.py lines 6-22): the CONTENTS
of the set of all field names over the parseable lines, listed here in
first-appearance order.  The Python object is a `set`, whose iteration
order is unspecified (string hashing is randomized per process), so any
permutation of this list is an admissible order in which
`categorize_fields` may see the names; theorems below quantify over that
permutation where it matters. -/
def find_all_field_names (input : List InLine) : List String :=
  input.foldl
    (fun acc l =>
      match l with
      | .parsed record _ => insertNew acc (recordKeys record)
      | _ => acc)
    []

/-- Whether the field is present in the record with a Python-truthy value —
the acceptance test of the loop in `get_id`. -/
def presentTruthy (record : Record) (field : String) : Bool :=
  match pyGet record field with
  | some v => truthy v
  | none => false

/-- Restatement of the identifier lookup in the spec's words for the
pre-categorized design: the first candidate of the category list present in
the record with a truthy value wins; otherwise the generated identifier. -/
def idLookupSpec (record : Record) (fields : List String) (line_number : Nat) : String :=
  match fields.find? (fun f => presentTruthy record f) with
  | some f => pyStr ((pyGet record f).getD Value.null)
  | none => "generated_" ++ toString line_number

/-- The end-to-end input line of §8: `{"id": "5", "event_type": "click",
"ts": 1754203335}`. -/
def lineC1 : Record :=
  [("id", Value.str "5"), ("event_type", Value.str "click"),
   ("ts", Value.int 1754203335)]

/-- A record holding an exact-alias id field (`event_id`) after a merely
substring-matching one (`order_id`). -/
def recC2 : Record := [("order_id", Value.str "X9"), ("event_id", Value.str "E7")]

/-- A record whose timestamp is derivable but whose only event-type signal
is a falsy `transaction_type`. -/
def recC5 : Record :=
  [("created", Value.str "2025-08-01T00:04:25Z"), ("transaction_type", Value.str "")]

/-- A record with two id-like fields, for the tie-break analysis. -/
def recC9 : Record := [("user_id", Value.str "U1"), ("id", Value.str "A")]

/-- A three-line corpus in which the field name `id` appears strictly before
`user_id`. -/
def corpusC9 : List InLine :=
  [InLine.parsed [("id", Value.str "A0")] "", InLine.parsed [("user_id", Value.str "U0")] "",
   InLine.parsed recC9 ""]

/-- A record whose single `user_id` field is id-like and user-like at once. -/
def recC10 : Record :=
  [("user_id", Value.str "u7"), ("event_type", Value.str "click"),
   ("created", Value.str "2025-08-01T00:04:25.122Z")]

/-- An input whose single record can satisfy no role heuristic at all. -/
def inputC4 : List InLine := [InLine.parsed [("foo", Value.str "x")] "raw-line-1"]

theorem append_z_ne_empty (u : String) : u ++ "Z" ≠ "" := by
  intro h
  have hlen := congrArg String.length h
  rw [String.length_append] at hlen
  have h1 : ("Z" : String).length = 1 := by decide
  have h0 : ("" : String).length = 0 := by decide
  omega

theorem tsNormalize_ne_empty (v : Value) (s : String)
    (h : tsNormalize v = some s) : s ≠ "" := by
  cases v with
  | str t =>
    by_cases hT : hasSub t "T" = true
    · simp [tsNormalize, hT] at h
      subst h
      intro he
      subst he
      exact absurd hT (by decide)
    · simp [tsNormalize, hT] at h
      rcases h with ⟨hsp, u, hu, hz⟩
      subst hz
      exact append_z_ne_empty u
  | int n =>
    simp only [tsNormalize] at h
    by_cases hms : n > 1000000000000
    · simp [hms] at h
      rcases h with ⟨u, hu, hz⟩
      subst hz
      exact append_z_ne_empty u
    · by_cases hs : n > 1000000000
      · simp [hms, hs] at h
        rcases h with ⟨u, hu, hz⟩
        subst hz
        exact append_z_ne_empty u
      · simp [hms, hs] at h
  | bool b => simp [tsNormalize] at h
  | null => simp [tsNormalize] at h

theorem get_timestamp_ne_empty (record : Record) (fields : List String) (s : String)
    (h : get_timestamp record fields = some s) : s ≠ "" := by
  induction fields with
  | nil => simp [get_timestamp] at h
  | cons f rest ih =>
    cases hg : pyGet record f with
    | none =>
      simp only [get_timestamp, hg] at h
      exact ih h
    | some v =>
      simp only [get_timestamp, hg] at h
      by_cases hc : (!truthy v || v == Value.str "invalid-date") = true
      · rw [if_pos hc] at h; exact ih h
      · rw [if_neg hc] at h
        cases hn : tsNormalize v with
        | none => simp only [hn] at h; exact ih h
        | some t =>
          simp only [hn] at h
          cases h
          exact tsNormalize_ne_empty v _ hn

theorem optStrTruthy_get_timestamp (record : Record) (fields : List String) :
    optStrTruthy (get_timestamp record fields) = (get_timestamp record fields).isSome := by
  cases hg : get_timestamp record fields with
  | none => rfl
  | some s =>
    have := get_timestamp_ne_empty record fields s hg
    simp [optStrTruthy, this]

theorem map_to_schema_fst_isSome (record : Record) (line : String) (n : Nat)
    (cats : Categories) :
    (map_to_schema record line n cats).1.isSome
      = (optStrTruthy (get_timestamp record cats.timestamp_fields)
          && optValTruthy (get_event_type record cats.event_type_fields)) := by
  cases hA : optStrTruthy (get_timestamp record cats.timestamp_fields) <;>
    cases hB : optValTruthy (get_event_type record cats.event_type_fields) <;>
      simp [map_to_schema, hA, hB]

theorem map_to_schema_snd (record : Record) (line : String) (n : Nat)
    (cats : Categories) :
    (map_to_schema record line n cats).2
      = (if optStrTruthy (get_timestamp record cats.timestamp_fields) then []
         else ["Missing timestamp"])
        ++ (if optValTruthy (get_event_type record cats.event_type_fields) then []
            else ["Missing event type"]) := by
  cases hA : optStrTruthy (get_timestamp record cats.timestamp_fields) <;>
    cases hB : optValTruthy (get_event_type record cats.event_type_fields) <;>
      simp [map_to_schema, hA, hB]

/-- The timestamp-bucket test of `categorize_fields` on one name. -/
def tsNameMatch (f : String) : Bool :=
  hasSub (lowerStr f) "time" || hasSub (lowerStr f) "date"
    || hasSub (lowerStr f) "created" || hasSub (lowerStr f) "occurred"

/-- The event-type-bucket test of `categorize_fields` on one name. -/
def etNameMatch (f : String) : Bool :=
  hasSub (lowerStr f) "type" || hasSub (lowerStr f) "event"
    || hasSub (lowerStr f) "action"

theorem mem_timestamp_fields_match (order : List String) (f : String)
    (h : f ∈ (categorize_fields order).timestamp_fields) : tsNameMatch f = true := by
  induction order with
  | nil => simp [categorize_fields] at h
  | cons a rest ih =>
    simp only [categorize_fields, List.mem_append] at h
    rcases h with h | h
    · by_cases hc : (hasSub (lowerStr a) "time" || hasSub (lowerStr a) "date"
          || hasSub (lowerStr a) "created" || hasSub (lowerStr a) "occurred") = true
      · rw [if_pos hc] at h
        simp only [List.mem_singleton] at h
        subst h
        exact hc
      · rw [if_neg hc] at h
        simp at h
    · exact ih h

theorem mem_event_type_fields_match (order : List String) (f : String)
    (h : f ∈ (categorize_fields order).event_type_fields) : etNameMatch f = true := by
  induction order with
  | nil => simp [categorize_fields] at h
  | cons a rest ih =>
    simp only [categorize_fields, List.mem_append] at h
    rcases h with h | h
    · by_cases hc : (hasSub (lowerStr a) "type" || hasSub (lowerStr a) "event"
          || hasSub (lowerStr a) "action") = true
      · rw [if_pos hc] at h
        simp only [List.mem_singleton] at h
        subst h
        exact hc
      · rw [if_neg hc] at h
        simp at h
    · exact ih h

theorem mem_event_type_fields_of_match (order : List String) (f : String)
    (hf : f ∈ order) (hm : etNameMatch f = true) :
    f ∈ (categorize_fields order).event_type_fields := by
  induction order with
  | nil => cases hf
  | cons a rest ih =>
    simp only [categorize_fields, List.mem_append]
    rcases List.mem_cons.mp hf with h | h
    · subst h
      left
      have hm' : (hasSub (lowerStr f) "type" || hasSub (lowerStr f) "event"
          || hasSub (lowerStr f) "action") = true := hm
      rw [if_pos hm']
      exact List.mem_singleton.mpr rfl
    · right
      exact ih h

theorem pyGet_lineC1_cases (f : String) :
    f = "id" ∨ f = "event_type" ∨ f = "ts" ∨ pyGet lineC1 f = none := by
  by_cases h1 : f = "id"
  · exact Or.inl h1
  by_cases h2 : f = "event_type"
  · exact Or.inr (Or.inl h2)
  by_cases h3 : f = "ts"
  · exact Or.inr (Or.inr (Or.inl h3))
  refine Or.inr (Or.inr (Or.inr ?_))
  have e1 : ("id" == f) = false := by
    rw [beq_eq_false_iff_ne]
    exact fun hh => h1 hh.symm
  have e2 : ("event_type" == f) = false := by
    rw [beq_eq_false_iff_ne]
    exact fun hh => h2 hh.symm
  have e3 : ("ts" == f) = false := by
    rw [beq_eq_false_iff_ne]
    exact fun hh => h3 hh.symm
  simp [lineC1, pyGet, e1, e2, e3]

theorem get_timestamp_all_absent (record : Record) (fields : List String)
    (hall : ∀ f ∈ fields, pyGet record f = none) :
    get_timestamp record fields = none := by
  induction fields with
  | nil => rfl
  | cons a rest ih =>
    have ha := hall a (List.mem_cons_self a rest)
    simp only [get_timestamp, ha]
    exact ih fun f hf => hall f (List.mem_cons_of_mem a hf)

theorem get_event_type_lineC1 (fields : List String)
    (hmem : "event_type" ∈ fields)
    (hall : ∀ f ∈ fields, f = "event_type" ∨ pyGet lineC1 f = none) :
    get_event_type lineC1 fields = some (Value.str "click") := by
  induction fields with
  | nil => cases hmem
  | cons a rest ih =>
    rcases hall a (List.mem_cons_self a rest) with ha | ha
    · subst ha
      have hg : pyGet lineC1 "event_type" = some (Value.str "click") := by decide
      simp [get_event_type, hg, truthy, pyStr]
    · simp only [get_event_type, ha]
      have hrest : "event_type" ∈ rest := by
        rcases List.mem_cons.mp hmem with h | h
        · exfalso
          rw [← h] at ha
          exact absurd ha (by decide)
        · exact h
      exact ih hrest fun f hf => hall f (List.mem_cons_of_mem a hf)

/-- C1 (counterexample): with the corpus of the single line `{"id": "5",
"event_type": "click", "ts": 1754203335}`, the categorizer scans only the
substrings `time`/`date`/`created`/`occurred` — not `ts` — so the timestamp
bucket is empty and the line is REJECTED with `Missing timestamp`, not
accepted as the claim states. -/
theorem c1_ts_not_scanned_cex :
    (categorize_fields ["id", "event_type", "ts"]).timestamp_fields = []
      ∧ map_to_schema lineC1 "" 1 (categorize_fields ["id", "event_type", "ts"])
          = (none, ["Missing timestamp"]) := by
  decide

/-- C1 (amended): the Timestamp Normalizer scans field names only for the
substrings `time`, `date`, `created`, `occurred` (case-insensitive) — `ts`
is NOT among them — so the input line `{"id": "5", "event_type": "click",
"ts": 1754203335}` is rejected with exactly `Missing timestamp`, under
every iteration order the corpus field-name set may present (as long as the
set contains `event_type`, which the corpus guarantees). -/
theorem c1_amended_ts_line_rejected (order : List String)
    (h : "event_type" ∈ order) :
    map_to_schema lineC1 "" 1 (categorize_fields order)
      = (none, ["Missing timestamp"]) := by
  have hts : get_timestamp lineC1 (categorize_fields order).timestamp_fields = none := by
    apply get_timestamp_all_absent
    intro f hf
    have hm := mem_timestamp_fields_match order f hf
    rcases pyGet_lineC1_cases f with h1 | h1 | h1 | h1
    · subst h1; exact absurd hm (by decide)
    · subst h1; exact absurd hm (by decide)
    · subst h1; exact absurd hm (by decide)
    · exact h1
  have het : get_event_type lineC1 (categorize_fields order).event_type_fields
      = some (Value.str "click") := by
    apply get_event_type_lineC1
    · exact mem_event_type_fields_of_match order "event_type" h (by decide)
    · intro f hf
      have hm := mem_event_type_fields_match order f hf
      rcases pyGet_lineC1_cases f with h1 | h1 | h1 | h1
      · subst h1; exact absurd hm (by decide)
      · exact Or.inl h1
      · subst h1; exact absurd hm (by decide)
      · exact Or.inr h1
  simp [map_to_schema, hts, het, optStrTruthy, optValTruthy, truthy]

/-- Witness for C1 (amended) at the concrete corpus order
`["id", "event_type", "ts"]`. -/
theorem c1_amended_ts_line_rejected_witness :
    "event_type" ∈ ["id", "event_type", "ts"]
      ∧ map_to_schema lineC1 "" 1 (categorize_fields ["id", "event_type", "ts"])
          = (none, ["Missing timestamp"]) :=
  ⟨by decide, c1_amended_ts_line_rejected ["id", "event_type", "ts"] (by decide)⟩

/-- C2 (counterexample): `recC2` has the exact-alias field `event_id` with a
truthy value, yet under the admissible bucket order `["order_id",
"event_id"]` (exactly the collected contents of the corpus set) `get_id`
returns the merely-substring field `order_id`'s value `"X9"`, not `"E7"`:
there is no exact-alias priority pass. -/
theorem c2_exact_alias_cex :
    find_all_field_names [InLine.parsed recC2 "x"] = ["order_id", "event_id"]
      ∧ get_id recC2 (categorize_fields ["order_id", "event_id"]).id_fields 7 = "X9"
      ∧ ("X9" : String) ≠ "E7" := by
  decide

/-- C2 (amended): the Identifier Extractor runs a single pass over the
pre-built id bucket in the bucket's list order and returns the stringified
value of the first listed field present in the record with a truthy value;
an exact-alias field such as `event_id` wins only when every field
preceding it in the bucket is absent or falsy — there is no separate
exact-alias priority pass. -/
theorem c2_amended_list_order_priority (record : Record) (pre : List String)
    (f : String) (post : List String) (n : Nat)
    (hpre : ∀ g ∈ pre, presentTruthy record g = false)
    (hf : presentTruthy record f = true) :
    get_id record (pre ++ f :: post) n = pyStr ((pyGet record f).getD Value.null) := by
  induction pre with
  | nil =>
    cases hg : pyGet record f with
    | none => simp [presentTruthy, hg] at hf
    | some v =>
      have hv : truthy v = true := by simpa [presentTruthy, hg] using hf
      simp [get_id, hg, hv]
  | cons g pre ih =>
    have hgf := hpre g (List.mem_cons_self g pre)
    cases hg : pyGet record g with
    | none =>
      simp only [List.cons_append, get_id, hg]
      exact ih fun x hx => hpre x (List.mem_cons_of_mem g hx)
    | some v =>
      have hv : truthy v = false := by simpa [presentTruthy, hg] using hgf
      simp only [List.cons_append, get_id, hg, hv, Bool.false_eq_true, if_false]
      exact ih fun x hx => hpre x (List.mem_cons_of_mem g hx)

/-- Witness for C2 (amended): `event_id` is returned once the earlier
bucket entry (`bogus`, absent from the record) yields nothing. -/
theorem c2_amended_list_order_priority_witness :
    presentTruthy recC2 "event_id" = true
      ∧ get_id recC2 (["bogus"] ++ "event_id" :: []) 7
          = pyStr ((pyGet recC2 "event_id").getD Value.null) :=
  ⟨by decide,
   c2_amended_list_order_priority recC2 ["bogus"] "event_id" [] 7 (by decide) (by decide)⟩

/-- C9 (counterexample): in `corpusC9` the name `id` appears strictly before
`user_id`, so first-appearance order is `["id", "user_id"]`; yet
`["user_id", "id"]` is a permutation of the collected set contents — an
admissible iteration order of the Python `set` — and under it `get_id`
returns `"U1"` where first-appearance order returns `"A"`.  The category's
order is therefore NOT the order of first appearance in the corpus. -/
theorem c9_set_order_cex :
    find_all_field_names corpusC9 = ["id", "user_id"]
      ∧ List.Perm ["user_id", "id"] (find_all_field_names corpusC9)
      ∧ get_id recC9 (categorize_fields ["user_id", "id"]).id_fields 3 = "U1"
      ∧ get_id recC9 (categorize_fields ["id", "user_id"]).id_fields 3 = "A"
      ∧ ("U1" : String) ≠ "A" := by
  refine ⟨by decide, ?_, by decide, by decide, by decide⟩
  have h : find_all_field_names corpusC9 = ["id", "user_id"] := by decide
  rw [h]
  exact List.Perm.swap "id" "user_id" []

/-- C9 (amended): the pre-categorized Identifier Extractor iterates the id
bucket in the bucket's own list order — which is whatever iteration order
the collected field-name set yields, not necessarily first-appearance
order — rather than the record's field order, returning the first bucket
candidate present in the record with a truthy value (stringified), else the
generated identifier.  `idLookupSpec` is that sentence as a definition. -/
theorem c9_amended_category_list_order (record : Record) (fields : List String) (n : Nat) :
    get_id record fields n = idLookupSpec record fields n := by
  induction fields with
  | nil => rfl
  | cons f rest ih =>
    cases hp : presentTruthy record f with
    | false =>
      have hfind : List.find? (fun g => presentTruthy record g) (f :: rest)
          = List.find? (fun g => presentTruthy record g) rest := by
        simp [List.find?, hp]
      cases hg : pyGet record f with
      | none =>
        simp only [get_id, hg]
        rw [ih]
        simp only [idLookupSpec, hfind]
      | some v =>
        have hv : truthy v = false := by simpa [presentTruthy, hg] using hp
        simp only [get_id, hg, hv, Bool.false_eq_true, if_false]
        rw [ih]
        simp only [idLookupSpec, hfind]
    | true =>
      have hfind : List.find? (fun g => presentTruthy record g) (f :: rest) = some f := by
        simp [List.find?, hp]
      cases hg : pyGet record f with
      | none => simp [presentTruthy, hg] at hp
      | some v =>
        have hv : truthy v = true := by simpa [presentTruthy, hg] using hp
        simp only [get_id, hg, hv, if_true]
        simp only [idLookupSpec, hfind, hg, Option.getD_some]

theorem map_to_schema_none_isEmpty (record : Record) (line : String) (n : Nat)
    (cats : Categories) (errs : List String)
    (h : map_to_schema record line n cats = (none, errs)) : errs.isEmpty = false := by
  have h1 := map_to_schema_fst_isSome record line n cats
  have h2 := map_to_schema_snd record line n cats
  rw [h] at h1 h2
  cases hA : optStrTruthy (get_timestamp record cats.timestamp_fields) <;>
    cases hB : optValTruthy (get_event_type record cats.event_type_fields) <;>
      rw [hA, hB] at h1 h2 <;> simp_all

theorem processLine_invalid_all (cats : Categories) (st : BatchResult) (n : Nat)
    (l : InLine) (h : st.invalid.all (fun e => !e.errors.isEmpty) = true) :
    (processLine cats st n l).invalid.all (fun e => !e.errors.isEmpty) = true := by
  cases l with
  | blank => exact h
  | badJson raw => exact h
  | parsed record raw =>
    rcases hm : map_to_schema record raw n cats with ⟨oe, errs⟩
    cases oe with
    | some ev => simp only [processLine, hm]; exact h
    | none =>
      have he := map_to_schema_none_isEmpty record raw n cats errs hm
      simp only [processLine, hm, List.all_append]
      simp [h, he]

theorem processLines_invalid_all (cats : Categories) (input : List InLine) :
    ∀ (n : Nat) (st : BatchResult),
      st.invalid.all (fun e => !e.errors.isEmpty) = true →
      (processLines cats input n st).invalid.all (fun e => !e.errors.isEmpty) = true := by
  induction input with
  | nil => intro n st h; exact h
  | cons l rest ih =>
    intro n st h
    exact ih (n + 1) _ (processLine_invalid_all cats st n l h)

/-- C3 (counterexample): a lone unparseable line is reported as `Bad JSON`
on the diagnostic channel, but the invalid set stays EMPTY — the line does
not join the invalid set and does not count toward the invalid total, so
the success-rate denominator never sees it. -/
theorem c3_bad_json_cex :
    (runBatch (categorize_fields []) [InLine.badJson "not json"]).invalid = []
      ∧ (runBatch (categorize_fields []) [InLine.badJson "not json"]).diags
          = [Diag.badJson 1] := by
  decide

/-- C3 (amended): a line that fails to parse as JSON only appends a
`Bad JSON` message to the diagnostic channel; the valid and invalid sets
are untouched and the Record Mapper is never invoked on the line (the
resulting state does not depend on the categorization at all). -/
theorem c3_amended_bad_json_diagnostic_only (cats : Categories) (st : BatchResult)
    (n : Nat) (raw : String) :
    processLine cats st n (InLine.badJson raw)
      = { st with diags := st.diags ++ [Diag.badJson n] } := rfl

/-- C4 (counterexample): a run containing one rejected record produces a
non-empty invalid set whose entry carries only the line number and the
errors (no copy of the raw record), and the only file written is
`unified_events.json` with the valid set — the invalid set is never
serialized to output. -/
theorem c4_invalid_not_serialized_cex :
    (runBatch (categorize_fields (find_all_field_names inputC4)) inputC4).invalid
        = [RejectionRecord.mk 1 ["Missing timestamp", "Missing event type"]]
      ∧ savedFiles (runBatch (categorize_fields (find_all_field_names inputC4)) inputC4)
          = [("unified_events.json", [])] := by
  decide

/-- C4 (amended): every rejection entry carries its originating line number
and a non-empty ordered error list, but not the original record; and
regardless of the input, exactly one output file is written —
`unified_events.json`, holding the valid set — so the invalid set is never
serialized, even when non-empty. -/
theorem c4_amended_rejection_shape (cats : Categories) (input : List InLine) :
    ((runBatch cats input).invalid.all (fun e => !e.errors.isEmpty)) = true
      ∧ savedFiles (runBatch cats input)
          = [("unified_events.json", (runBatch cats input).valid)] :=
  ⟨processLines_invalid_all cats input 1 _ rfl, rfl⟩

/-- C5 (counterexample): on `recC5` the Timestamp Normalizer derives a
timestamp and the Event-Type Extractor DOES derive a value — the falsy
`transaction_type` fallback returns `""` — yet the Record Mapper rejects
the record with `Missing event type`: acceptance is not equivalent to both
roles being derived. -/
theorem c5_falsy_event_type_cex :
    get_timestamp recC5 (categorize_fields ["created", "transaction_type"]).timestamp_fields
        = some "2025-08-01T00:04:25Z"
      ∧ get_event_type recC5
            (categorize_fields ["created", "transaction_type"]).event_type_fields
          = some (Value.str "")
      ∧ map_to_schema recC5 "" 1 (categorize_fields ["created", "transaction_type"])
          = (none, ["Missing event type"]) := by
  decide

/-- C5 (amended): the Record Mapper accepts a record iff the derived
timestamp and the derived event type are both truthy; a timestamp is truthy
exactly when it is derived at all, while an event type can be derived yet
falsy (the raw `transaction_type` fallback) and then still counts as
missing.  On rejection the error list is exactly `"Missing timestamp"`
and/or `"Missing event type"`, appended in that order; identifier, user and
source never contribute errors. -/
theorem c5_amended_acceptance_iff_truthy (record : Record) (line : String) (n : Nat)
    (cats : Categories) :
    ((map_to_schema record line n cats).1.isSome
        = (optStrTruthy (get_timestamp record cats.timestamp_fields)
            && optValTruthy (get_event_type record cats.event_type_fields)))
      ∧ (map_to_schema record line n cats).2
          = (if optStrTruthy (get_timestamp record cats.timestamp_fields) then []
             else ["Missing timestamp"])
            ++ (if optValTruthy (get_event_type record cats.event_type_fields) then []
                else ["Missing event type"])
      ∧ optStrTruthy (get_timestamp record cats.timestamp_fields)
          = (get_timestamp record cats.timestamp_fields).isSome :=
  ⟨map_to_schema_fst_isSome record line n cats,
   map_to_schema_snd record line n cats,
   optStrTruthy_get_timestamp record cats.timestamp_fields⟩

/-- C6: the Source Classifier is total into {vendor, device, internal},
any vendor key forces `vendor` (so it precedes the device check), the
device branch fires only when no vendor key is present and both `error` and
`stack_trace` are, a record with `transaction_id` plus `error` and
`stack_trace` classifies as `vendor`, and the Record Mapper's error list
only ever holds the two missing-field strings — source is never a reason
for rejection. -/
theorem c6_source_classifier (record : Record) :
    (get_source record = "vendor" ∨ get_source record = "device"
        ∨ get_source record = "internal")
      ∧ ((pyHasKey record "transaction_id" || pyHasKey record "payment_method"
            || pyHasKey record "order_details") = true → get_source record = "vendor")
      ∧ ((pyHasKey record "transaction_id" || pyHasKey record "payment_method"
            || pyHasKey record "order_details") = false →
          (pyHasKey record "error" && pyHasKey record "stack_trace") = true →
          get_source record = "device")
      ∧ get_source [("transaction_id", Value.str "T1"), ("error", Value.str "boom"),
            ("stack_trace", Value.str "tb")] = "vendor"
      ∧ (∀ (line : String) (n : Nat) (cats : Categories),
          ((map_to_schema record line n cats).2.all
              (fun e => e == "Missing timestamp" || e == "Missing event type")) = true) := by
  refine ⟨?_, ?_, ?_, by decide, ?_⟩
  · unfold get_source
    split
    · exact Or.inl rfl
    · split
      · exact Or.inr (Or.inl rfl)
      · exact Or.inr (Or.inr rfl)
  · intro h
    unfold get_source
    simp [h]
  · intro h1 h2
    unfold get_source
    simp [h1, h2]
  · intro line n cats
    rw [map_to_schema_snd]
    cases hA : optStrTruthy (get_timestamp record cats.timestamp_fields) <;>
      cases hB : optValTruthy (get_event_type record cats.event_type_fields) <;>
        decide

/-- Witness for C6 at concrete records with and without vendor keys. -/
theorem c6_source_classifier_witness :
    get_source [("transaction_id", Value.str "T1")] = "vendor"
      ∧ get_source [("error", Value.str "e"), ("stack_trace", Value.str "s")] = "device" :=
  ⟨(c6_source_classifier [("transaction_id", Value.str "T1")]).2.1 (by decide),
   (c6_source_classifier [("error", Value.str "e"), ("stack_trace", Value.str "s")]).2.2.1
     (by decide) (by decide)⟩

/-- C7: a timestamp-candidate value that is text containing `T` is returned
by the Timestamp Normalizer unchanged — the very string, no `Z` appended,
no other modification. -/
theorem c7_iso_passthrough (record : Record) (f s : String)
    (hget : pyGet record f = some (Value.str s)) (hT : hasSub s "T" = true) :
    get_timestamp record [f] = some s := by
  have hne : s ≠ "" := by
    intro he
    subst he
    exact absurd hT (by decide)
  have hinv : s ≠ "invalid-date" := by
    intro he
    subst he
    exact absurd hT (by decide)
  have htr : truthy (Value.str s) = true := by simp [truthy, hne]
  have hbeq : (Value.str s == Value.str "invalid-date") = false := by
    simp [hinv]
  simp [get_timestamp, hget, htr, hbeq, tsNormalize, hT]

/-- Witness for C7 at a concrete ISO string. -/
theorem c7_iso_passthrough_witness :
    get_timestamp [("created", Value.str "2025-08-01T00:04:25.122Z")] ["created"]
      = some "2025-08-01T00:04:25.122Z" :=
  c7_iso_passthrough [("created", Value.str "2025-08-01T00:04:25.122Z")] "created"
    "2025-08-01T00:04:25.122Z" (by decide) (by decide)

/-- C8: an integer timestamp above `10^12` is taken as milliseconds and one
above `10^9` (up to `datetime`'s year-9999 bound, beyond which the
conversion raises and the candidate is skipped) as seconds since the epoch;
each is converted to an ISO-8601 string with `Z` appended, the
thousandfold millisecond form of any such epoch yields the very same
string, and in particular `1754203335000` and `1754203335` both normalize
to `2025-08-03T06:42:15Z` (conversion modelled at UTC, matching the
spec's local-time-equals-UTC caveat). -/
theorem c8_epoch_thresholds (f : String) (v : Int)
    (h1 : 1000000000 < v) (h2 : v ≤ 253402300799) :
    get_timestamp [(f, Value.int v)] [f] = some (isoOfEpoch v.toNat 0 ++ "Z")
      ∧ get_timestamp [(f, Value.int (1000 * v))] [f]
          = get_timestamp [(f, Value.int v)] [f]
      ∧ get_timestamp [("ts13", Value.int 1754203335000)] ["ts13"]
          = get_timestamp [("ts10", Value.int 1754203335)] ["ts10"]
      ∧ get_timestamp [("ts10", Value.int 1754203335)] ["ts10"]
          = some "2025-08-03T06:42:15Z" := by
  have hsec : get_timestamp [(f, Value.int v)] [f]
      = some (isoOfEpoch v.toNat 0 ++ "Z") := by
    have hget : pyGet [(f, Value.int v)] f = some (Value.int v) := by
      simp [pyGet]
    have htr : truthy (Value.int v) = true := by
      simp only [truthy, bne_iff_ne, ne_eq, decide_eq_true_eq]
      omega
    have hbeq : (Value.int v == Value.str "invalid-date") = false := by
      simp [beq_eq_false_iff_ne]
    have hnotms : ¬(v > 1000000000000) := by omega
    have hn0 : ¬(v < 0) := by omega
    have hmax : ¬(v.toNat > maxEpochSecs) := by
      simp only [maxEpochSecs]
      omega
    simp [get_timestamp, hget, htr, hbeq, tsNormalize, hnotms, h1,
      fromtimestampSec, hn0, hmax]
  have hms : get_timestamp [(f, Value.int (1000 * v))] [f]
      = some (isoOfEpoch v.toNat 0 ++ "Z") := by
    have hget : pyGet [(f, Value.int (1000 * v))] f = some (Value.int (1000 * v)) := by
      simp [pyGet]
    have htr : truthy (Value.int (1000 * v)) = true := by
      simp only [truthy, bne_iff_ne, ne_eq, decide_eq_true_eq]
      omega
    have hbeq : (Value.int (1000 * v) == Value.str "invalid-date") = false := by
      simp [beq_eq_false_iff_ne]
    have hgt : 1000 * v > 1000000000000 := by omega
    have hn0 : ¬(1000 * v < 0) := by omega
    have htn : (1000 * v).toNat = 1000 * v.toNat := by omega
    have hdiv : 1000 * v.toNat / 1000 = v.toNat := by omega
    have hmod : 1000 * v.toNat % 1000 = 0 := by omega
    have hmax : ¬(v.toNat > maxEpochSecs) := by
      simp only [maxEpochSecs]
      omega
    simp [get_timestamp, hget, htr, hbeq, tsNormalize, hgt, fromtimestampMs,
      hn0, htn, hdiv, hmod, hmax]
  exact ⟨hsec, hms.trans hsec.symm, by decide, by decide⟩

/-- Witness for C8 at the concrete ten-digit epoch `1754203335`. -/
theorem c8_epoch_thresholds_witness :
    1000000000 < (1754203335 : Int) ∧ (1754203335 : Int) ≤ 253402300799
      ∧ get_timestamp [("t", Value.int 1754203335)] ["t"]
          = some (isoOfEpoch (Int.toNat 1754203335) 0 ++ "Z") :=
  ⟨by norm_num, by norm_num,
   (c8_epoch_thresholds "t" 1754203335 (by norm_num) (by norm_num)).1⟩

/-- C10: the categorization checks are independent, so `user_id` lands in
the id bucket AND the user bucket at once, and on a concrete accepted
record the single field's value `u7` populates both `id` and `userId` of
the same Unified Event. -/
theorem c10_multi_category_field :
    (categorize_fields ["user_id", "event_type", "created"]).id_fields = ["user_id"]
      ∧ (categorize_fields ["user_id", "event_type", "created"]).user_fields = ["user_id"]
      ∧ (map_to_schema recC10 "" 1 (categorize_fields ["user_id", "event_type", "created"])).1
          = some { id := "u7", timestamp := "2025-08-01T00:04:25.122Z",
                   source := "internal", eventType := Value.str "click",
                   payload := recC10, userId := some "u7" } := by
  decide
